import Mathlib

/-!
Verification of the dim-wishlist-editor manifest pipeline.

This file gives a shallow embedding of the weapon extraction/transformation
pipeline of the repository (the transformer, the season/event derivation, the
d2ai auxiliary loader and the manifest sync entry point) and proves the spec
claims about it.  Stateful code (IndexedDB access, network fetches) is
modelled by explicit state passing: the database is a record value, a fetch
outcome is an `Option` (none = the request failed), and the number of
attempted table/auxiliary fetches is returned alongside the result.
-/

set_option linter.unusedVariables false

namespace DimWishlist

/-! ### Identifier catalog (src/lib/constants.ts) -/

/-- Bungie.net base URL for asset paths. -/
def BUNGIE_NET : String := "https://www.bungie.net"

/-- The three weapon slot buckets: kinetic, energy, power. -/
def WEAPON_BUCKET_HASHES : List Nat := [1498876634, 2465295065, 953998645]

/-- SocketCategoryHashes.IntrinsicTraits -/
def IntrinsicTraitsCategory : Nat := 3956125808

/-- SocketCategoryHashes.WeaponPerks -/
def WeaponPerksCategory : Nat := 4241085061

/-- SocketTypeHashes.Tracker: kill tracker socket, filtered from perk columns. -/
def TrackerSocketType : Nat := 1282012138

/-- Plug category hashes of empty/placeholder plugs. -/
def EMPTY_PLUG_CATEGORY_HASHES : List Nat := [3618704867, 1915962497]

/-- ItemCategoryHashes.Weapon -/
def ItemCategoryWeapon : Nat := 1

/-- ItemCategoryHashes.Dummies -/
def ItemCategoryDummies : Nat := 3109687656

/-- ItemCategoryHashes.WeaponModsOriginTraits -/
def ItemCategoryOriginTraits : Nat := 1052191891

/-- Enhanced perks have inventory.tierType === 3. -/
def ENHANCED_PERK_TIER_TYPE : Nat := 3

/-! ### Manifest data model (bungie-api-ts shapes, fields the pipeline reads) -/

/-- displayProperties of a definition record. -/
structure DisplayProperties where
  name : String
  description : String
  icon : String
deriving DecidableEq, Repr

/-- The `inventory` block of an item definition. -/
structure InventoryBlock where
  bucketTypeHash : Nat
  tierType : Nat
deriving DecidableEq, Repr

/-- The `equippingBlock` of an item definition. -/
structure EquippingBlock where
  ammoType : Nat
deriving DecidableEq, Repr

/-- The `plug` block of an item definition. -/
structure PlugBlock where
  plugCategoryHash : Nat
deriving DecidableEq, Repr

/-- One entry of a socket's own `reusablePlugItems` list. -/
structure SocketPlugItem where
  plugItemHash : Nat
deriving DecidableEq, Repr

/-- One entry of a plug set's `reusablePlugItems` pool. -/
structure PlugSetItem where
  plugItemHash : Nat
  currentlyCanRoll : Bool
deriving DecidableEq, Repr

/-- One socket entry of an item's socket block. -/
structure SocketEntry where
  socketTypeHash : Nat
  singleInitialItemHash : Nat
  reusablePlugItems : List SocketPlugItem
  randomizedPlugSetHash : Option Nat
  reusablePlugSetHash : Option Nat
deriving DecidableEq, Repr

/-- One socket category of an item's socket block: references socket entries
by index. -/
structure SocketCategoryEntry where
  socketCategoryHash : Nat
  socketIndexes : List Nat
deriving DecidableEq, Repr

/-- The optional `sockets` block of an item definition. -/
structure SocketBlock where
  socketEntries : List SocketEntry
  socketCategories : List SocketCategoryEntry
deriving DecidableEq, Repr

/-- A DestinyInventoryItemDefinition, restricted to the fields the pipeline
reads.  Optional JSON fields are `Option`; string fields absent in data are
the empty string (JS falsy). -/
structure InventoryItemDef where
  hash : Nat
  displayProperties : DisplayProperties
  flavorText : String
  itemTypeDisplayName : String
  itemCategoryHashes : Option (List Nat)
  inventory : Option InventoryBlock
  equippingBlock : Option EquippingBlock
  defaultDamageTypeHash : Option Nat
  redacted : Bool
  iconWatermark : String
  iconWatermarkShelved : String
  iconWatermarkFeatured : String
  screenshot : String
  secondaryIcon : String
  isAdept : Option Bool
  isHolofoil : Option Bool
  isFeaturedItem : Option Bool
  sockets : Option SocketBlock
  plug : Option PlugBlock
deriving DecidableEq, Repr

/-- A DestinyPlugSetDefinition: a shared pool of candidate plugs. -/
structure PlugSetDef where
  reusablePlugItems : List PlugSetItem
deriving DecidableEq, Repr

/-- A DestinyCollectibleDefinition: links an item hash to a source hash. -/
structure CollectibleDef where
  itemHash : Nat
  sourceHash : Option Nat
deriving DecidableEq, Repr

/-- A DestinyDamageTypeDefinition. -/
structure DamageTypeDef where
  displayProperties : DisplayProperties
  enumValue : Nat
deriving DecidableEq, Repr

/-- A DestinySocketTypeDefinition (present in the table set, unused by the
transformer beyond its hash). -/
structure SocketTypeDef where
  hash : Nat
deriving DecidableEq, Repr

/-- A DestinySocketCategoryDefinition (present in the table set, unused by
the transformer beyond its hash). -/
structure SocketCategoryDef where
  hash : Nat
deriving DecidableEq, Repr

/-- All manifest tables needed for weapon extraction.  A table is an
association list from the numeric hash (the decimal-string key of the JSON
object) to the definition record; lookups may miss. -/
structure ManifestTables where
  DestinyInventoryItemDefinition : List (Nat × InventoryItemDef)
  DestinyPlugSetDefinition : List (Nat × PlugSetDef)
  DestinyCollectibleDefinition : List (Nat × CollectibleDef)
  DestinyDamageTypeDefinition : List (Nat × DamageTypeDef)
  DestinySocketTypeDefinition : List (Nat × SocketTypeDef)
  DestinySocketCategoryDefinition : List (Nat × SocketCategoryDef)
deriving DecidableEq, Repr

/-- `tables.X[String(h)]` : key lookup in a definition table. -/
def tlookup {α : Type} (t : List (Nat × α)) (h : Nat) : Option α :=
  List.lookup h t

/-- `Object.values(tables.X)` : the values of a definition table. -/
def tvalues {α : Type} (t : List (Nat × α)) : List α :=
  t.map Prod.snd

/-! ### d2ai auxiliary data (src/types + src/services/manifest/d2ai.ts) -/

/-- The six auxiliary lookups fetched from the d2ai-module repository.  The
five maps are JSON objects with string keys, modelled as association lists. -/
structure D2AIData where
  watermarkToSeason : List (String × Nat)
  watermarkToEvent : List (String × Nat)
  sourceToSeason : List (String × Nat)
  seasons : List (String × Nat)
  events : List (String × Nat)
  craftableHashes : List Nat
deriving DecidableEq, Repr

/-- String-keyed JSON object lookup. -/
def slookup (m : List (String × Nat)) (k : String) : Option Nat :=
  List.lookup k m

/-- The empty defaults returned by loadD2AIData when the fetch fails. -/
def emptyD2AIData : D2AIData :=
  { watermarkToSeason := [], watermarkToEvent := [], sourceToSeason := [],
    seasons := [], events := [], craftableHashes := [] }

/-! ### Output records (src/types/weapons.ts) -/

/-- The intrinsic frame of a weapon. -/
structure Frame where
  hash : Nat
  name : String
  description : String
  iconSrc : Option String
deriving DecidableEq, Repr

/-- An origin-trait intrinsic of a weapon. -/
structure Intrinsic where
  hash : Nat
  name : String
  description : String
  iconSrc : Option String
deriving DecidableEq, Repr

/-- One candidate perk in a perk column. -/
structure Perk where
  hash : Nat
  name : String
  description : String
  itemType : String
  iconSrc : Option String
  isCurated : Bool
  curatedExclusive : Bool
  isDeprecated : Bool
deriving DecidableEq, Repr

/-- The derived item attributes of a weapon. -/
structure WeaponItem where
  hash : Nat
  name : String
  flavorText : String
  tierType : Nat
  itemType : String
  damageType : Nat
  slot : Int
  ammoType : Nat
  source : Option Nat
  iconSrc : Option String
  watermarkSrc : Option String
  watermarkFeaturedSrc : Option String
  screenshotSrc : Option String
  foundrySrc : Option String
  isCraftable : Bool
  isAdept : Bool
  isHolofoil : Bool
  isFeatured : Bool
  season : Option Nat
  event : Option Nat
deriving DecidableEq, Repr

/-- The full weapon record. -/
structure WeaponFull where
  hash : Nat
  item : WeaponItem
  frame : Option Frame
  intrinsics : List Intrinsic
  perks : List (List Perk)
deriving DecidableEq, Repr

/-- The concise weapon record: a flattened projection of the full record. -/
structure WeaponConcise where
  hash : Nat
  name : String
  tierType : Nat
  itemType : String
  damageType : Nat
  slot : Int
  ammoType : Nat
  source : Option Nat
  iconSrc : Option String
  watermarkSrc : Option String
  watermarkFeaturedSrc : Option String
  isCraftable : Bool
  isAdept : Bool
  isHolofoil : Bool
  isFeatured : Bool
  season : Option Nat
  event : Option Nat
  frame : String
  perks : List (List String)
deriving DecidableEq, Repr

/-! ### Season / event derivation (src/services/manifest/season.ts) -/

/-- getSeason: watermark lookup, then source-hash lookup, then item-hash
lookup, else null.  The JS guards are truthiness tests: a null/empty
watermark and an absent/zero sourceHash skip their step. -/
def getSeason (itemDef : InventoryItemDef) (watermark : Option String)
    (sourceHash : Option Nat) (d2aiData : D2AIData) : Option Nat :=
  match (match watermark with
         | some w => if w ≠ "" then slookup d2aiData.watermarkToSeason w else none
         | none => none) with
  | some season => some season
  | none =>
    match (match sourceHash with
           | some s => if s ≠ 0 then slookup d2aiData.sourceToSeason (toString s) else none
           | none => none) with
    | some season => some season
    | none =>
      match slookup d2aiData.seasons (toString itemDef.hash) with
      | some season => some season
      | none => none

/-- getEvent: watermark lookup, then item-hash lookup, else null (the
source-hash step does not exist for events). -/
def getEvent (itemDef : InventoryItemDef) (watermark : Option String)
    (sourceHash : Option Nat) (d2aiData : D2AIData) : Option Nat :=
  match (match watermark with
         | some w => if w ≠ "" then slookup d2aiData.watermarkToEvent w else none
         | none => none) with
  | some eventId => some eventId
  | none =>
    match slookup d2aiData.events (toString itemDef.hash) with
    | some eventId => some eventId
    | none => none

/-! ### Transformer (src/services/manifest/transformer.ts) -/

/-- isWeapon: the qualification filter applied before any resolution work. -/
def isWeapon (itemDef : InventoryItemDef) : Bool :=
  let categories := itemDef.itemCategoryHashes.getD []
  let bucketHash := itemDef.inventory.map InventoryBlock.bucketTypeHash
  categories.contains ItemCategoryWeapon &&
  !categories.contains ItemCategoryDummies &&
  (match bucketHash with
   | some b => WEAPON_BUCKET_HASHES.contains b
   | none => false) &&
  itemDef.displayProperties.name ≠ "" &&
  !itemDef.redacted

/-- getWatermark: prefer iconWatermark, fall back to iconWatermarkShelved,
else null. -/
def getWatermark (itemDef : InventoryItemDef) : Option String :=
  if itemDef.iconWatermark.length > 0 then
    some itemDef.iconWatermark
  else if itemDef.iconWatermarkShelved.length > 0 then
    some itemDef.iconWatermarkShelved
  else
    none

/-- getSlot: slot number from bucket hash. -/
def getSlot (bucketHash : Nat) : Int :=
  if bucketHash = 1498876634 then 0
  else if bucketHash = 2465295065 then 1
  else if bucketHash = 953998645 then 2
  else -1

/-- prefixBungieOrNull: prefix a path with the Bungie.net domain, null when
the path is empty/absent. -/
def prefixBungieOrNull (path : String) : Option String :=
  if path = "" then none else some (BUNGIE_NET ++ path)

/-- The collectible lookup built once per transformation
(`collectibleByItemHash`): collectibles with a truthy itemHash are entered
into a JS Map (later entries overwrite earlier ones), value
`sourceHash ?? 0`. -/
def collectibleSource (tables : ManifestTables) (h : Nat) : Option Nat :=
  (((tvalues tables.DestinyCollectibleDefinition).filter
      (fun c => c.itemHash ≠ 0)).reverse.find? (fun c => c.itemHash = h)).map
    (fun c => c.sourceHash.getD 0)

/-- extractWeaponItem: the derived item attributes of one weapon. -/
def extractWeaponItem (itemDef : InventoryItemDef) (tables : ManifestTables)
    (d2aiData : D2AIData) : WeaponItem :=
  let bucketHash := (itemDef.inventory.map InventoryBlock.bucketTypeHash).getD 0
  let watermark := getWatermark itemDef
  let damageTypeDef :=
    match itemDef.defaultDamageTypeHash with
    | some h => if h ≠ 0 then tlookup tables.DestinyDamageTypeDefinition h else none
    | none => none
  let sourceHash := collectibleSource tables itemDef.hash
  { hash := itemDef.hash
    name := itemDef.displayProperties.name
    flavorText := itemDef.flavorText
    tierType := (itemDef.inventory.map InventoryBlock.tierType).getD 0
    itemType := itemDef.itemTypeDisplayName
    damageType := (damageTypeDef.map DamageTypeDef.enumValue).getD 0
    slot := getSlot bucketHash
    ammoType := (itemDef.equippingBlock.map EquippingBlock.ammoType).getD 0
    source := sourceHash
    iconSrc := prefixBungieOrNull itemDef.displayProperties.icon
    watermarkSrc := prefixBungieOrNull itemDef.iconWatermark
    watermarkFeaturedSrc := prefixBungieOrNull itemDef.iconWatermarkFeatured
    screenshotSrc := prefixBungieOrNull itemDef.screenshot
    foundrySrc := prefixBungieOrNull itemDef.secondaryIcon
    isCraftable := d2aiData.craftableHashes.contains itemDef.hash
    isAdept := itemDef.isAdept.getD false
    isHolofoil := itemDef.isHolofoil.getD false
    isFeatured := itemDef.isFeaturedItem.getD false
    season := getSeason itemDef watermark sourceHash d2aiData
    event := getEvent itemDef watermark sourceHash d2aiData }

/-- getSocketsByCategory: the socket entries referenced (by index) by the
socket category with the given hash. -/
def getSocketsByCategory (itemDef : InventoryItemDef) (categoryHash : Nat) :
    List SocketEntry :=
  match itemDef.sockets with
  | none => []
  | some socketData =>
    match socketData.socketCategories.find?
        (fun c => c.socketCategoryHash = categoryHash) with
    | none => []
    | some category =>
      category.socketIndexes.filterMap (fun idx => socketData.socketEntries.get? idx)

/-- getFrame: the fixed plug of the first IntrinsicTraits socket. -/
def getFrame (itemDef : InventoryItemDef) (tables : ManifestTables) : Option Frame :=
  match (getSocketsByCategory itemDef IntrinsicTraitsCategory).head? with
  | none => none
  | some socket =>
    if socket.singleInitialItemHash = 0 then none
    else
      match tlookup tables.DestinyInventoryItemDefinition socket.singleInitialItemHash with
      | none => none
      | some plugDef =>
        some { hash := plugDef.hash
               name := plugDef.displayProperties.name
               description := plugDef.displayProperties.description
               iconSrc := prefixBungieOrNull plugDef.displayProperties.icon }

/-- getIntrinsics: WeaponPerks sockets whose fixed plug carries the
origin-trait item category. -/
def getIntrinsics (itemDef : InventoryItemDef) (tables : ManifestTables) :
    List Intrinsic :=
  (getSocketsByCategory itemDef WeaponPerksCategory).filterMap (fun socket =>
    if socket.singleInitialItemHash = 0 then none
    else
      match tlookup tables.DestinyInventoryItemDefinition socket.singleInitialItemHash with
      | none => none
      | some plugDef =>
        if (plugDef.itemCategoryHashes.getD []).contains ItemCategoryOriginTraits then
          some { hash := plugDef.hash
                 name := plugDef.displayProperties.name
                 description := plugDef.displayProperties.description
                 iconSrc := prefixBungieOrNull plugDef.displayProperties.icon }
        else none)

/-- First-occurrence deduplication with an explicit seen accumulator. -/
def dedupFirstAux : List Nat → List Nat → List Nat
  | [], _ => []
  | h :: t, seen =>
    if seen.contains h then dedupFirstAux t seen
    else h :: dedupFirstAux t (h :: seen)

/-- First-occurrence deduplication: the iteration order of a JS Set is
insertion order, and re-adding an element does not move it. -/
def dedupFirst (l : List Nat) : List Nat :=
  dedupFirstAux l []

/-- getCuratedPlugHashes: the JS Set of the socket's own reusablePlugItems
hashes, as its insertion-ordered element list. -/
def getCuratedPlugHashes (socket : SocketEntry) : List Nat :=
  dedupFirst (socket.reusablePlugItems.map SocketPlugItem.plugItemHash)

/-- isEmptyPlug: the plug's category hash is one of the empty/placeholder
plug categories. -/
def isEmptyPlug (plugDef : InventoryItemDef) : Bool :=
  match plugDef.plug with
  | some p => EMPTY_PLUG_CATEGORY_HASHES.contains p.plugCategoryHash
  | none => false

/-- isEnhancedPerk: enhanced perks have inventory.tierType === 3. -/
def isEnhancedPerk (plugDef : InventoryItemDef) : Bool :=
  match plugDef.inventory with
  | some inv => inv.tierType = ENHANCED_PERK_TIER_TYPE
  | none => false

/-- isValidPerk: displayable (has a name, not an empty plug, not an
enhanced variant). -/
def isValidPerk (plugDef : InventoryItemDef) : Bool :=
  plugDef.displayProperties.name.length > 0 && !isEmptyPlug plugDef &&
    !isEnhancedPerk plugDef

/-- createPerk: build a Perk from a plug definition and the three flags. -/
def createPerk (plugDef : InventoryItemDef) (isCurated curatedExclusive isDeprecated : Bool) :
    Perk :=
  { hash := plugDef.hash
    name := plugDef.displayProperties.name
    description := plugDef.displayProperties.description
    itemType := plugDef.itemTypeDisplayName
    iconSrc := prefixBungieOrNull plugDef.displayProperties.icon
    isCurated := isCurated
    curatedExclusive := curatedExclusive
    isDeprecated := isDeprecated }

/-- The loop of getPerksFromReusablePlugItems, with the explicit `seenHashes`
accumulator that collapses duplicate plug-definition hashes to their first
occurrence. -/
def perksFromReusableLoop (socket : SocketEntry) (tables : ManifestTables) :
    List SocketPlugItem → List Nat → List Perk
  | [], _ => []
  | plug :: rest, seen =>
    match tlookup tables.DestinyInventoryItemDefinition plug.plugItemHash with
    | none => perksFromReusableLoop socket tables rest seen
    | some plugDef =>
      if isValidPerk plugDef then
        if seen.contains plugDef.hash then
          perksFromReusableLoop socket tables rest seen
        else
          createPerk plugDef (plug.plugItemHash = socket.singleInitialItemHash) false false ::
            perksFromReusableLoop socket tables rest (plugDef.hash :: seen)
      else perksFromReusableLoop socket tables rest seen

/-- getPerksFromReusablePlugItems: a column from the socket's own
reusablePlugItems (a perk is curated when it equals the fixed plug hash). -/
def getPerksFromReusablePlugItems (socket : SocketEntry) (tables : ManifestTables) :
    List Perk :=
  perksFromReusableLoop socket tables socket.reusablePlugItems []

/-- getFixedPerk: the single fixed plug of a socket, curated and
curated-exclusive. -/
def getFixedPerk (socket : SocketEntry) (tables : ManifestTables) : Option Perk :=
  if socket.singleInitialItemHash = 0 then none
  else
    match tlookup tables.DestinyInventoryItemDefinition socket.singleInitialItemHash with
    | none => none
    | some plugDef =>
      if isValidPerk plugDef then some (createPerk plugDef true true false)
      else none

/-- getPerksFromPlugSet: the pool perks (pool order, curated iff listed by
the socket's own reusable-plug list, deprecated iff not currently rollable)
followed by the curated-exclusive perks (curated hashes absent from the
pool). -/
def getPerksFromPlugSet (socket : SocketEntry) (plugSet : PlugSetDef)
    (tables : ManifestTables) : List Perk :=
  let curatedHashes := getCuratedPlugHashes socket
  let randomPoolHashes := plugSet.reusablePlugItems.map PlugSetItem.plugItemHash
  let poolPerks := plugSet.reusablePlugItems.filterMap (fun plug =>
    match tlookup tables.DestinyInventoryItemDefinition plug.plugItemHash with
    | none => none
    | some plugDef =>
      if isValidPerk plugDef then
        some (createPerk plugDef (curatedHashes.contains plug.plugItemHash) false
          (!plug.currentlyCanRoll))
      else none)
  let curatedExclusivePerks := curatedHashes.filterMap (fun curatedHash =>
    if randomPoolHashes.contains curatedHash then none
    else
      match tlookup tables.DestinyInventoryItemDefinition curatedHash with
      | none => none
      | some plugDef =>
        if isValidPerk plugDef then some (createPerk plugDef true true false)
        else none)
  poolPerks ++ curatedExclusivePerks

/-- The per-socket body of the getPerks loop: `none` when the socket
contributes no column (tracker socket, missing plug set, or every candidate
filtered out). -/
def socketPerkColumn (socket : SocketEntry) (tables : ManifestTables) :
    Option (List Perk) :=
  if socket.socketTypeHash = TrackerSocketType then none
  else
    let plugSetHash :=
      match socket.randomizedPlugSetHash with
      | some h => some h
      | none => socket.reusablePlugSetHash
    match plugSetHash with
    | none =>
      if socket.reusablePlugItems.length > 0 then
        let perks := getPerksFromReusablePlugItems socket tables
        if perks.length > 0 then some perks else none
      else
        match getFixedPerk socket tables with
        | some fixedPerk => some [fixedPerk]
        | none => none
    | some psh =>
      match tlookup tables.DestinyPlugSetDefinition psh with
      | none => none
      | some plugSet =>
        let perks := getPerksFromPlugSet socket plugSet tables
        if perks.length > 0 then some perks else none

/-- getPerks: the perk columns of a weapon, in socket order within the
WeaponPerks category. -/
def getPerks (itemDef : InventoryItemDef) (tables : ManifestTables) :
    List (List Perk) :=
  (getSocketsByCategory itemDef WeaponPerksCategory).filterMap
    (fun socket => socketPerkColumn socket tables)

/-- toWeaponConcise: the flattened projection of a full record. -/
def toWeaponConcise (weaponFull : WeaponFull) : WeaponConcise :=
  { hash := weaponFull.hash
    name := weaponFull.item.name
    tierType := weaponFull.item.tierType
    itemType := weaponFull.item.itemType
    damageType := weaponFull.item.damageType
    slot := weaponFull.item.slot
    ammoType := weaponFull.item.ammoType
    source := weaponFull.item.source
    iconSrc := weaponFull.item.iconSrc
    watermarkSrc := weaponFull.item.watermarkSrc
    watermarkFeaturedSrc := weaponFull.item.watermarkFeaturedSrc
    isCraftable := weaponFull.item.isCraftable
    isAdept := weaponFull.item.isAdept
    isHolofoil := weaponFull.item.isHolofoil
    isFeatured := weaponFull.item.isFeatured
    season := weaponFull.item.season
    event := weaponFull.item.event
    frame := (weaponFull.frame.map Frame.name).getD ""
    perks := weaponFull.perks.map (fun column => column.map Perk.name) }

/-- The full record built for one qualifying item. -/
def mkWeaponFull (tables : ManifestTables) (d2aiData : D2AIData)
    (itemDef : InventoryItemDef) : WeaponFull :=
  { hash := itemDef.hash
    item := extractWeaponItem itemDef tables d2aiData
    frame := getFrame itemDef tables
    intrinsics := getIntrinsics itemDef tables
    perks := getPerks itemDef tables }

/-- Result of weapon transformation. -/
structure TransformResult where
  full : List WeaponFull
  concise : List WeaponConcise
deriving DecidableEq, Repr

/-- transformWeapons: filter the item table down to weapons, build the full
record of each and push its concise projection alongside it. -/
def transformWeapons (tables : ManifestTables) (d2aiData : D2AIData) :
    TransformResult :=
  let weapons := (tvalues tables.DestinyInventoryItemDefinition).filter isWeapon
  let full := weapons.map (mkWeaponFull tables d2aiData)
  { full := full, concise := full.map toWeaponConcise }

/-! ### Auxiliary loader (src/services/manifest/d2ai.ts) -/

/-- The per-file outcomes of the six parallel d2ai fetches of one load
attempt; `none` means that file's request failed. -/
structure D2AIOutcomes where
  watermarkToSeason : Option (List (String × Nat))
  watermarkToEvent : Option (List (String × Nat))
  sourceToSeason : Option (List (String × Nat))
  seasons : Option (List (String × Nat))
  events : Option (List (String × Nat))
  craftableHashes : Option (List Nat)
deriving DecidableEq, Repr

/-- Whether any of the six fetch outcomes failed (Promise.all rejects). -/
def anyD2AIFailure (o : D2AIOutcomes) : Bool :=
  o.watermarkToSeason.isNone || o.watermarkToEvent.isNone ||
  o.sourceToSeason.isNone || o.seasons.isNone || o.events.isNone ||
  o.craftableHashes.isNone

/-- loadD2AIData over an explicit cache state: returns the data, the
helperData cache afterwards, and the number of auxiliary file fetches
attempted.  With a cache hit nothing is fetched; otherwise all six files are
requested together (Promise.all), and if any of them fails the catch block
returns the empty defaults without writing the cache. -/
def loadD2AIData (cache : Option D2AIData) (o : D2AIOutcomes) :
    D2AIData × Option D2AIData × Nat :=
  match cache with
  | some cached => (cached, some cached, 0)
  | none =>
    match o.watermarkToSeason, o.watermarkToEvent, o.sourceToSeason,
        o.seasons, o.events, o.craftableHashes with
    | some w2s, some w2e, some s2s, some se, some ev, some cr =>
      let data : D2AIData :=
        { watermarkToSeason := w2s, watermarkToEvent := w2e,
          sourceToSeason := s2s, seasons := se, events := ev,
          craftableHashes := cr }
      (data, some data, 6)
    | _, _, _, _, _, _ => (emptyD2AIData, cache, 6)

/-! ### Manifest sync (src/services/manifest/loader.ts) -/

/-- Mapping of damage type enum value to Bungie icon URL
(extractDamageTypeIcons). -/
def extractDamageTypeIcons (tables : ManifestTables) : List (Nat × String) :=
  (tvalues tables.DestinyDamageTypeDefinition).filterMap (fun damageTypeDef =>
    match prefixBungieOrNull damageTypeDef.displayProperties.icon with
    | some iconPath => some (damageTypeDef.enumValue, iconPath)
    | none => none)

/-- Result of manifest loading operation. -/
structure ManifestLoadResult where
  version : String
  weaponCount : Nat
  cached : Bool
deriving DecidableEq, Repr

/-- The persisted IndexedDB state the sync protocol reads and writes. -/
structure DBState where
  version : Option String
  weapons : List WeaponFull
  weaponsConcise : List WeaponConcise
  d2aiCache : Option D2AIData
  damageTypeIcons : Option (List (Nat × String))
deriving DecidableEq, Repr

/-- The environment of one sync run: the freshly fetched metadata version,
the tables a full download would deliver, and the d2ai fetch outcomes. -/
structure SyncEnv where
  remoteVersion : String
  tables : ManifestTables
  d2aiOutcomes : D2AIOutcomes
deriving DecidableEq, Repr

/-- loadManifest over explicit state: returns the load result, the database
state afterwards, the number of manifest table fetches and the number of
auxiliary file fetches.  When the cached version token equals the fresh one
the call returns immediately with the count of persisted concise records;
otherwise the six tables and the auxiliary data are fetched, the weapons
transformed, and records, version and icons persisted in one transaction. -/
def loadManifest (env : SyncEnv) (st : DBState) :
    ManifestLoadResult × DBState × Nat × Nat :=
  if st.version = some env.remoteVersion then
    ({ version := env.remoteVersion, weaponCount := st.weaponsConcise.length,
       cached := true }, st, 0, 0)
  else
    let fetched := loadD2AIData st.d2aiCache env.d2aiOutcomes
    let weapons := transformWeapons env.tables fetched.1
    let damageTypeIcons := extractDamageTypeIcons env.tables
    let newState : DBState :=
      { version := some env.remoteVersion
        weapons := weapons.full
        weaponsConcise := weapons.concise
        d2aiCache := fetched.2.1
        damageTypeIcons := some damageTypeIcons }
    ({ version := env.remoteVersion, weaponCount := weapons.full.length,
       cached := false }, newState, 6, fetched.2.2)

/-! ### Spec-side definitions

These transcribe sentences of the specification (not the source) and are
compared against the source-derived functions above. -/

/-- Spec: "randomized preferred over reusable" — the plug-set hash a socket
references. -/
def specPlugSetHash (socket : SocketEntry) : Option Nat :=
  match socket.randomizedPlugSetHash with
  | some h => some h
  | none => socket.reusablePlugSetHash

/-- Spec (C2): the pool part of a plug-set column — the pool's perks in pool
order, each curated iff its hash also appears in the socket's own
reusable-plug list, deprecated iff the pool entry's roll flag is false, and
never curated-exclusive.  (Pool entries without a valid displayable plug
definition contribute nothing.) -/
def specPoolColumn (socket : SocketEntry) (plugSet : PlugSetDef)
    (tables : ManifestTables) : List Perk :=
  plugSet.reusablePlugItems.filterMap (fun plug =>
    match tlookup tables.DestinyInventoryItemDefinition plug.plugItemHash with
    | none => none
    | some plugDef =>
      if isValidPerk plugDef then
        some (createPerk plugDef
          ((socket.reusablePlugItems.map SocketPlugItem.plugItemHash).contains
            plug.plugItemHash)
          false (!plug.currentlyCanRoll))
      else none)

/-- Spec (C2): the tail of a plug-set column — every hash of the socket's
curated list that is absent from the pool, appended as a curated and
curated-exclusive, non-deprecated perk (first-occurrence order, one entry
per distinct hash). -/
def specCuratedExclusiveTail (socket : SocketEntry) (plugSet : PlugSetDef)
    (tables : ManifestTables) : List Perk :=
  (dedupFirst (socket.reusablePlugItems.map SocketPlugItem.plugItemHash)).filterMap
    (fun curatedHash =>
      if (plugSet.reusablePlugItems.map PlugSetItem.plugItemHash).contains curatedHash then
        none
      else
        match tlookup tables.DestinyInventoryItemDefinition curatedHash with
        | none => none
        | some plugDef =>
          if isValidPerk plugDef then some (createPerk plugDef true true false)
          else none)

/-- Spec (C5): season resolution tries the watermark→season map, then the
source→season map, then the item→season map, first hit wins, null when none
hits. -/
def specSeasonChain (itemDef : InventoryItemDef) (watermark : Option String)
    (sourceHash : Option Nat) (d2aiData : D2AIData) : List (Option Nat) :=
  [ watermark.bind (fun w => slookup d2aiData.watermarkToSeason w),
    sourceHash.bind (fun s => slookup d2aiData.sourceToSeason (toString s)),
    slookup d2aiData.seasons (toString itemDef.hash) ]

/-- Spec (C5): event resolution is the same layered chain with the
source-hash step omitted. -/
def specEventChain (itemDef : InventoryItemDef) (watermark : Option String)
    (d2aiData : D2AIData) : List (Option Nat) :=
  [ watermark.bind (fun w => slookup d2aiData.watermarkToEvent w),
    slookup d2aiData.events (toString itemDef.hash) ]

/-- Spec (C3): the per-file degraded result — each failed file's map/set
replaced by an empty one, each successfully fetched file's data preserved. -/
def specPerFileFallback (o : D2AIOutcomes) : D2AIData :=
  { watermarkToSeason := o.watermarkToSeason.getD []
    watermarkToEvent := o.watermarkToEvent.getD []
    sourceToSeason := o.sourceToSeason.getD []
    seasons := o.seasons.getD []
    events := o.events.getD []
    craftableHashes := o.craftableHashes.getD [] }

/-! ### Concrete sample data (used by witnesses and counterexamples) -/

/-- A minimal plug item definition with the given hash and display name. -/
def mkPlugDef (h : Nat) (plugName : String) : InventoryItemDef :=
  { hash := h
    displayProperties := { name := plugName, description := "", icon := "" }
    flavorText := ""
    itemTypeDisplayName := "Trait"
    itemCategoryHashes := none
    inventory := none
    equippingBlock := none
    defaultDamageTypeHash := none
    redacted := false
    iconWatermark := ""
    iconWatermarkShelved := ""
    iconWatermarkFeatured := ""
    screenshot := ""
    secondaryIcon := ""
    isAdept := none
    isHolofoil := none
    isFeaturedItem := none
    sockets := none
    plug := none }

/-- The intrinsic-frame socket of the sample weapon: fixed plug 200. -/
def frameSocket : SocketEntry :=
  { socketTypeHash := 7
    singleInitialItemHash := 200
    reusablePlugItems := []
    randomizedPlugSetHash := none
    reusablePlugSetHash := none }

/-- The perk socket of the sample weapon: randomized plug set 400, curated
list [300]. -/
def perkSocket : SocketEntry :=
  { socketTypeHash := 8
    singleInitialItemHash := 0
    reusablePlugItems := [{ plugItemHash := 300 }]
    randomizedPlugSetHash := some 400
    reusablePlugSetHash := none }

/-- The sample plug set: pool {300, 301, 302}, 302 not currently rollable. -/
def samplePlugSet : PlugSetDef :=
  { reusablePlugItems :=
      [ { plugItemHash := 300, currentlyCanRoll := true },
        { plugItemHash := 301, currentlyCanRoll := true },
        { plugItemHash := 302, currentlyCanRoll := false } ] }

/-- A qualifying sample weapon: kinetic bucket, weapon category, one
intrinsic socket and one perk socket. -/
def sampleWeaponDef : InventoryItemDef :=
  { mkPlugDef 100 "Sample Rifle" with
    itemCategoryHashes := some [1]
    inventory := some { bucketTypeHash := 1498876634, tierType := 5 }
    sockets := some
      { socketEntries := [frameSocket, perkSocket]
        socketCategories :=
          [ { socketCategoryHash := IntrinsicTraitsCategory, socketIndexes := [0] },
            { socketCategoryHash := WeaponPerksCategory, socketIndexes := [1] } ] } }

/-- Sample manifest tables containing the weapon, its plugs and the plug
set. -/
def sampleTables : ManifestTables :=
  { DestinyInventoryItemDefinition :=
      [ (100, sampleWeaponDef),
        (200, mkPlugDef 200 "Adaptive Frame"),
        (300, mkPlugDef 300 "Outlaw"),
        (301, mkPlugDef 301 "Rampage"),
        (302, mkPlugDef 302 "Kill Clip") ]
    DestinyPlugSetDefinition := [(400, samplePlugSet)]
    DestinyCollectibleDefinition := []
    DestinyDamageTypeDefinition := []
    DestinySocketTypeDefinition := []
    DestinySocketCategoryDefinition := [] }

/-- Sample auxiliary data for season/event witnesses. -/
def sampleD2AI : D2AIData :=
  { watermarkToSeason := [("wm1", 20)]
    watermarkToEvent := [("wm2", 2)]
    sourceToSeason := [("5", 21)]
    seasons := [("100", 22)]
    events := [("100", 3)]
    craftableHashes := [100] }

/-- A weapon whose perk socket references a plug set listing hash 300
twice. -/
def dupWeaponDef : InventoryItemDef :=
  { mkPlugDef 110 "Duplicated Rifle" with
    itemCategoryHashes := some [1]
    inventory := some { bucketTypeHash := 1498876634, tierType := 5 }
    sockets := some
      { socketEntries :=
          [ { socketTypeHash := 8
              singleInitialItemHash := 0
              reusablePlugItems := []
              randomizedPlugSetHash := some 410
              reusablePlugSetHash := none } ]
        socketCategories :=
          [ { socketCategoryHash := WeaponPerksCategory, socketIndexes := [0] } ] } }

/-- Tables whose plug set repeats plug hash 300. -/
def dupTables : ManifestTables :=
  { DestinyInventoryItemDefinition :=
      [ (110, dupWeaponDef), (300, mkPlugDef 300 "Outlaw") ]
    DestinyPlugSetDefinition :=
      [ (410, { reusablePlugItems :=
          [ { plugItemHash := 300, currentlyCanRoll := true },
            { plugItemHash := 300, currentlyCanRoll := true } ] }) ]
    DestinyCollectibleDefinition := []
    DestinyDamageTypeDefinition := []
    DestinySocketTypeDefinition := []
    DestinySocketCategoryDefinition := [] }

/-- Fetch outcomes where the seasons file fails while the sourceToSeason
file succeeds with data. -/
def c3FailOutcomes : D2AIOutcomes :=
  { watermarkToSeason := some []
    watermarkToEvent := some []
    sourceToSeason := some [("1", 7)]
    seasons := none
    events := some []
    craftableHashes := some [] }

/-- Fetch outcomes where all six files succeed. -/
def allOkOutcomes : D2AIOutcomes :=
  { watermarkToSeason := some [("wm1", 20)]
    watermarkToEvent := some []
    sourceToSeason := some []
    seasons := some []
    events := some []
    craftableHashes := some [100] }

/-- A database state holding a cached manifest version. -/
def cachedDBState : DBState :=
  { version := some "v1"
    weapons := []
    weaponsConcise := []
    d2aiCache := none
    damageTypeIcons := none }

/-- A sync environment whose remote version matches `cachedDBState`. -/
def sampleSyncEnv : SyncEnv :=
  { remoteVersion := "v1"
    tables := sampleTables
    d2aiOutcomes := allOkOutcomes }

/-! ### Theorems -/

/-- C1: when the persisted version token equals the freshly fetched one,
loadManifest returns {version, count of persisted concise records,
cached = true}, performs zero table fetches and zero auxiliary fetches, and
leaves the database state unchanged. -/
theorem c1_cached_sync (env : SyncEnv) (st : DBState)
    (h : st.version = some env.remoteVersion) :
    loadManifest env st =
      ({ version := env.remoteVersion, weaponCount := st.weaponsConcise.length,
         cached := true }, st, 0, 0) := by
  simp [loadManifest, h]

/-- Witness for C1 at the concrete cached state. -/
theorem c1_cached_sync_witness :
    loadManifest sampleSyncEnv cachedDBState =
      ({ version := "v1", weaponCount := 0, cached := true }, cachedDBState, 0, 0) :=
  c1_cached_sync sampleSyncEnv cachedDBState (by decide)

/-- Helper: a failed load attempt returns the empty defaults, writes no
cache, after attempting the six fetches. -/
theorem loadD2AI_fail (o : D2AIOutcomes) (h : anyD2AIFailure o = true) :
    loadD2AIData none o = (emptyD2AIData, none, 6) := by
  obtain ⟨w2s, w2e, s2s, se, ev, cr⟩ := o
  cases w2s <;> cases w2e <;> cases s2s <;> cases se <;> cases ev <;> cases cr <;>
    simp_all [anyD2AIFailure, loadD2AIData, emptyD2AIData]

/-- Helper: a fully successful load attempt assembles and caches the
per-file data. -/
theorem loadD2AI_ok (o : D2AIOutcomes) (h : anyD2AIFailure o = false) :
    loadD2AIData none o =
      (specPerFileFallback o, some (specPerFileFallback o), 6) := by
  obtain ⟨w2s, w2e, s2s, se, ev, cr⟩ := o
  cases w2s <;> cases w2e <;> cases s2s <;> cases se <;> cases ev <;> cases cr <;>
    simp_all [anyD2AIFailure, loadD2AIData, specPerFileFallback]

/-- Helper: a call that misses the cache attempts all six fetches. -/
theorem loadD2AI_attempts (o : D2AIOutcomes) :
    (loadD2AIData none o).2.2 = 6 := by
  obtain ⟨w2s, w2e, s2s, se, ev, cr⟩ := o
  cases w2s <;> cases w2e <;> cases s2s <;> cases se <;> cases ev <;> cases cr <;>
    simp [loadD2AIData]

/-- C3 counterexample: with the seasons file failing and the sourceToSeason
file succeeding with data, loadD2AIData does not preserve the successful
file — the whole result degrades to the empty defaults. -/
theorem c3_counterexample :
    (loadD2AIData none c3FailOutcomes).1 ≠ specPerFileFallback c3FailOutcomes := by
  decide

/-- C3 (amended): loadD2AIData never fails, but the per-file degradation the
claim states does not hold — one failed file empties all six: on any
individual failure the whole result is the empty defaults, and the per-file
data is preserved only when all six fetches succeed. -/
theorem c3_amended_fallback (o : D2AIOutcomes) :
    (anyD2AIFailure o = true → (loadD2AIData none o).1 = emptyD2AIData) ∧
    (anyD2AIFailure o = false → (loadD2AIData none o).1 = specPerFileFallback o) := by
  constructor
  · intro h
    rw [loadD2AI_fail o h]
  · intro h
    rw [loadD2AI_ok o h]

/-- Witness for the amended C3 at the concrete failing outcome. -/
theorem c3_amended_fallback_witness :
    (loadD2AIData none c3FailOutcomes).1 = emptyD2AIData :=
  (c3_amended_fallback c3FailOutcomes).1 (by decide)

/-- C10: when any of the six auxiliary fetches fails, loadD2AIData returns
the empty defaults without writing the helperData cache, and a subsequent
call attempts the six fetches again (failures are not sticky): with fully
successful outcomes the retry returns the per-file data. -/
theorem c10_failure_not_cached (o o2 : D2AIOutcomes)
    (h : anyD2AIFailure o = true) :
    (loadD2AIData none o).1 = emptyD2AIData ∧
    (loadD2AIData none o).2.1 = none ∧
    (loadD2AIData (loadD2AIData none o).2.1 o2).2.2 = 6 ∧
    (anyD2AIFailure o2 = false →
      (loadD2AIData (loadD2AIData none o).2.1 o2).1 = specPerFileFallback o2) := by
  rw [loadD2AI_fail o h]
  refine ⟨rfl, rfl, loadD2AI_attempts o2, fun h2 => ?_⟩
  rw [loadD2AI_ok o2 h2]

/-- Witness for C10 at the concrete failing and succeeding outcomes. -/
theorem c10_failure_not_cached_witness :
    (loadD2AIData none c3FailOutcomes).2.1 = none ∧
    (loadD2AIData (loadD2AIData none c3FailOutcomes).2.1 allOkOutcomes).1 =
      specPerFileFallback allOkOutcomes :=
  ⟨(c10_failure_not_cached c3FailOutcomes allOkOutcomes (by decide)).2.1,
   (c10_failure_not_cached c3FailOutcomes allOkOutcomes (by decide)).2.2.2 (by decide)⟩

/-- Helper: membership in the first-occurrence deduplication is list
membership. -/
theorem mem_dedupFirstAux (x : Nat) :
    ∀ (l seen : List Nat), x ∈ dedupFirstAux l seen ↔ x ∈ l ∧ x ∉ seen := by
  intro l
  induction l with
  | nil => intro seen; simp [dedupFirstAux]
  | cons h t ih =>
    intro seen
    rw [dedupFirstAux]
    split
    · rename_i hseen
      rw [ih seen]
      simp only [List.mem_cons]
      constructor
      · rintro ⟨hx, hns⟩
        exact ⟨Or.inr hx, hns⟩
      · rintro ⟨rfl | hx, hns⟩
        · exact absurd (by simpa using hseen) hns
        · exact ⟨hx, hns⟩
    · rename_i hseen
      simp only [List.mem_cons, ih (h :: seen)]
      constructor
      · rintro (rfl | ⟨hx, hns⟩)
        · exact ⟨Or.inl rfl, by simpa using hseen⟩
        · exact ⟨Or.inr hx, fun hc => hns (Or.inr hc)⟩
      · rintro ⟨rfl | hx, hns⟩
        · exact Or.inl rfl
        · by_cases hxh : x = h
          · exact Or.inl hxh
          · exact Or.inr ⟨hx, by simp [hxh, hns]⟩

theorem mem_dedupFirst (x : Nat) (l : List Nat) : x ∈ dedupFirst l ↔ x ∈ l := by
  rw [dedupFirst, mem_dedupFirstAux]
  simp

/-- Helper: a JS Set built from a list answers `has` exactly as the list
answers `includes`. -/
theorem contains_dedupFirst (l : List Nat) (x : Nat) :
    (dedupFirst l).contains x = l.contains x := by
  by_cases h : x ∈ l
  · simp [h, (mem_dedupFirst x l).mpr h]
  · have h2 : x ∉ dedupFirst l := fun hc => h ((mem_dedupFirst x l).mp hc)
    simp [h, h2]

/-- Helper: the plug-set column built by the source equals the
spec-described pool part followed by the curated-exclusive tail. -/
theorem plugset_eq_spec (socket : SocketEntry) (plugSet : PlugSetDef)
    (tables : ManifestTables) :
    getPerksFromPlugSet socket plugSet tables =
      specPoolColumn socket plugSet tables ++
        specCuratedExclusiveTail socket plugSet tables := by
  simp only [getPerksFromPlugSet, specPoolColumn, specCuratedExclusiveTail,
    getCuratedPlugHashes]
  congr 1
  apply List.filterMap_congr
  intro plug hmem
  rw [contains_dedupFirst]

/-- C2: for a non-tracker socket referencing a plug set (randomized
preferred over reusable), the emitted column is the pool's perks in pool
order — curated iff the hash also appears in the socket's own reusable-plug
list, deprecated iff the entry cannot currently roll, never
curated-exclusive — followed by the curated hashes absent from the pool as
curated, curated-exclusive, non-deprecated perks. -/
theorem c2_plugset_column (socket : SocketEntry) (psh : Nat) (plugSet : PlugSetDef)
    (tables : ManifestTables)
    (h1 : socket.socketTypeHash ≠ TrackerSocketType)
    (h2 : specPlugSetHash socket = some psh)
    (h3 : tlookup tables.DestinyPlugSetDefinition psh = some plugSet) :
    getPerksFromPlugSet socket plugSet tables =
      specPoolColumn socket plugSet tables ++ specCuratedExclusiveTail socket plugSet tables ∧
    socketPerkColumn socket tables =
      (if (specPoolColumn socket plugSet tables ++
            specCuratedExclusiveTail socket plugSet tables).length > 0
       then some (specPoolColumn socket plugSet tables ++
            specCuratedExclusiveTail socket plugSet tables)
       else none) := by
  have heq := plugset_eq_spec socket plugSet tables
  refine ⟨heq, ?_⟩
  cases hr : socket.randomizedPlugSetHash with
  | some r =>
    have hpsh : r = psh := by
      simpa [specPlugSetHash, hr] using h2
    subst hpsh
    simp [socketPerkColumn, if_neg h1, hr, h3, heq]
  | none =>
    have hru : socket.reusablePlugSetHash = some psh := by
      simpa [specPlugSetHash, hr] using h2
    simp [socketPerkColumn, if_neg h1, hr, hru, h3, heq]

/-- Witness for C2 at the sample perk socket and plug set. -/
theorem c2_plugset_column_witness :
    specPlugSetHash perkSocket = some 400 ∧
    getPerksFromPlugSet perkSocket samplePlugSet sampleTables =
      specPoolColumn perkSocket samplePlugSet sampleTables ++
        specCuratedExclusiveTail perkSocket samplePlugSet sampleTables :=
  ⟨by decide,
   (c2_plugset_column perkSocket 400 samplePlugSet sampleTables (by decide)
      (by decide) (by decide)).1⟩

/-- C7: the transformation emits the concise list as the pointwise pure
projection of the full list; every full record's item hash equals its
record hash; and the projection preserves hash, maps the frame to its name
(empty string when absent) and maps every perk to its name, indexwise. -/
theorem c7_concise_projection (tables : ManifestTables) (d2aiData : D2AIData) :
    ((transformWeapons tables d2aiData).concise =
      (transformWeapons tables d2aiData).full.map toWeaponConcise) ∧
    (∀ wf ∈ (transformWeapons tables d2aiData).full, wf.item.hash = wf.hash) ∧
    (∀ wf : WeaponFull,
      (toWeaponConcise wf).hash = wf.hash ∧
      ((toWeaponConcise wf).frame =
        match wf.frame with
        | some f => f.name
        | none => "") ∧
      (toWeaponConcise wf).perks = wf.perks.map (fun col => col.map Perk.name) ∧
      (∀ i j : Nat,
        ((toWeaponConcise wf).perks[i]?.bind (fun col => col[j]?)) =
          (wf.perks[i]?.bind (fun col => col[j]?)).map Perk.name)) := by
  refine ⟨rfl, ?_, ?_⟩
  · intro wf hmem
    simp only [transformWeapons, List.mem_map] at hmem
    obtain ⟨itemDef, hfilter, rfl⟩ := hmem
    rfl
  · intro wf
    refine ⟨rfl, ?_, rfl, ?_⟩
    · obtain ⟨h, item, frame, intrinsics, perks⟩ := wf
      cases frame <;> rfl
    · intro i j
      simp only [toWeaponConcise, List.getElem?_map]
      cases hcol : wf.perks[i]? with
      | none => rfl
      | some col => simp [List.getElem?_map]

/-- Witness for C7 at the sample weapon. -/
theorem c7_concise_projection_witness :
    (mkWeaponFull sampleTables sampleD2AI sampleWeaponDef).item.hash =
      (mkWeaponFull sampleTables sampleD2AI sampleWeaponDef).hash :=
  (c7_concise_projection sampleTables sampleD2AI).2.1 _
    (by simp [show (transformWeapons sampleTables sampleD2AI).full =
      [mkWeaponFull sampleTables sampleD2AI sampleWeaponDef] from rfl])

/-- Helper: a socket never contributes an empty column — every `some` branch
of the per-socket loop body is guarded by nonemptiness. -/
theorem socketPerkColumn_ne_nil (socket : SocketEntry) (tables : ManifestTables)
    (col : List Perk) (h : socketPerkColumn socket tables = some col) : col ≠ [] := by
  rcases col with _ | ⟨p, rest⟩
  · simp only [socketPerkColumn] at h
    split at h
    · exact absurd h (by simp)
    · split at h
      · split at h
        · split at h
          · rename_i hlen
            rw [Option.some.injEq] at h
            rw [h] at hlen
            simp at hlen
          · exact absurd h (by simp)
        · split at h
          · simp_all
          · exact absurd h (by simp)
      · split at h
        · exact absurd h (by simp)
        · split at h
          · rename_i hlen
            simp_all
          · exact absurd h (by simp)
  · simp

/-- Helper: every emitted full record is built from a qualifying item of the
item table. -/
theorem mem_transform_full (tables : ManifestTables) (d2aiData : D2AIData)
    (wf : WeaponFull) (h : wf ∈ (transformWeapons tables d2aiData).full) :
    ∃ itemDef ∈ tvalues tables.DestinyInventoryItemDefinition,
      isWeapon itemDef = true ∧ wf = mkWeaponFull tables d2aiData itemDef := by
  simp only [transformWeapons, List.mem_map, List.mem_filter] at h
  obtain ⟨itemDef, ⟨hmem, hweapon⟩, rfl⟩ := h
  exact ⟨itemDef, hmem, hweapon, rfl⟩

/-- C8: no emitted full weapon record contains an empty perk column —
sockets whose candidates are all filtered out are omitted entirely. -/
theorem c8_no_empty_columns (tables : ManifestTables) (d2aiData : D2AIData)
    (wf : WeaponFull) (hw : wf ∈ (transformWeapons tables d2aiData).full)
    (col : List Perk) (hc : col ∈ wf.perks) : col ≠ [] := by
  obtain ⟨itemDef, hmem, hweapon, rfl⟩ := mem_transform_full tables d2aiData wf hw
  simp only [mkWeaponFull, getPerks, List.mem_filterMap] at hc
  obtain ⟨socket, hsock, hcol⟩ := hc
  exact socketPerkColumn_ne_nil socket tables col hcol

/-- Witness for C8 at the sample weapon's perk column. -/
theorem c8_no_empty_columns_witness :
    getPerksFromPlugSet perkSocket samplePlugSet sampleTables ≠ [] :=
  c8_no_empty_columns sampleTables sampleD2AI
    (mkWeaponFull sampleTables sampleD2AI sampleWeaponDef)
    (by simp [show (transformWeapons sampleTables sampleD2AI).full =
      [mkWeaponFull sampleTables sampleD2AI sampleWeaponDef] from rfl])
    (getPerksFromPlugSet perkSocket samplePlugSet sampleTables)
    (by simp [show (mkWeaponFull sampleTables sampleD2AI sampleWeaponDef).perks =
      [getPerksFromPlugSet perkSocket samplePlugSet sampleTables] from rfl])

/-- Helper: unfolding of the validity filter into the three exclusion
conditions. -/
theorem validPerk_spec (d : InventoryItemDef) (h : isValidPerk d = true) :
    d.displayProperties.name ≠ "" ∧ isEmptyPlug d = false ∧ isEnhancedPerk d = false := by
  simp only [isValidPerk, Bool.and_eq_true] at h
  obtain ⟨⟨hname, hempty⟩, henh⟩ := h
  refine ⟨?_, by simpa using hempty, by simpa using henh⟩
  intro heq
  rw [heq] at hname
  simp at hname

/-- Helper: every perk of a plug-set column comes from a valid plug
definition. -/
theorem mem_plugset_valid (socket : SocketEntry) (plugSet : PlugSetDef)
    (tables : ManifestTables) (p : Perk)
    (hp : p ∈ getPerksFromPlugSet socket plugSet tables) :
    ∃ d, isValidPerk d = true ∧ p.hash = d.hash ∧ p.name = d.displayProperties.name := by
  simp only [getPerksFromPlugSet, List.mem_append, List.mem_filterMap] at hp
  rcases hp with ⟨plug, hmem, heq⟩ | ⟨ch, hmem, heq⟩
  · split at heq
    · exact absurd heq (by simp)
    · rename_i plugDef hlook
      split at heq
      · rename_i hvalid
        rw [Option.some.injEq] at heq
        subst heq
        exact ⟨plugDef, hvalid, rfl, rfl⟩
      · exact absurd heq (by simp)
  · split at heq
    · exact absurd heq (by simp)
    · split at heq
      · exact absurd heq (by simp)
      · rename_i plugDef hlook
        split at heq
        · rename_i hvalid
          rw [Option.some.injEq] at heq
          subst heq
          exact ⟨plugDef, hvalid, rfl, rfl⟩
        · exact absurd heq (by simp)

/-- Helper: every perk of a direct reusable-list column comes from a valid
plug definition. -/
theorem mem_reusableLoop_valid (socket : SocketEntry) (tables : ManifestTables) :
    ∀ (plugs : List SocketPlugItem) (seen : List Nat) (p : Perk),
      p ∈ perksFromReusableLoop socket tables plugs seen →
      ∃ d, isValidPerk d = true ∧ p.hash = d.hash ∧ p.name = d.displayProperties.name := by
  intro plugs
  induction plugs with
  | nil => intro seen p hp; simp [perksFromReusableLoop] at hp
  | cons plug rest ih =>
    intro seen p hp
    rw [perksFromReusableLoop] at hp
    split at hp
    · exact ih seen p hp
    · rename_i plugDef hlook
      split at hp
      · rename_i hvalid
        split at hp
        · exact ih seen p hp
        · rcases List.mem_cons.mp hp with rfl | hrest
          · exact ⟨plugDef, hvalid, rfl, rfl⟩
          · exact ih _ p hrest
      · exact ih seen p hp

/-- Helper: a fixed perk comes from a valid plug definition. -/
theorem fixedPerk_valid (socket : SocketEntry) (tables : ManifestTables) (p : Perk)
    (hp : getFixedPerk socket tables = some p) :
    ∃ d, isValidPerk d = true ∧ p.hash = d.hash ∧ p.name = d.displayProperties.name := by
  simp only [getFixedPerk] at hp
  split at hp
  · exact absurd hp (by simp)
  · split at hp
    · exact absurd hp (by simp)
    · rename_i plugDef hlook
      split at hp
      · rename_i hvalid
        rw [Option.some.injEq] at hp
        subst hp
        exact ⟨plugDef, hvalid, rfl, rfl⟩
      · exact absurd hp (by simp)

/-- Helper: every perk of any emitted column comes from a valid plug
definition, on all three construction paths. -/
theorem mem_column_valid (socket : SocketEntry) (tables : ManifestTables)
    (col : List Perk) (hcol : socketPerkColumn socket tables = some col)
    (p : Perk) (hp : p ∈ col) :
    ∃ d, isValidPerk d = true ∧ p.hash = d.hash ∧ p.name = d.displayProperties.name := by
  simp only [socketPerkColumn] at hcol
  split at hcol
  · exact absurd hcol (by simp)
  · split at hcol
    · split at hcol
      · split at hcol
        · rw [Option.some.injEq] at hcol
          subst hcol
          exact mem_reusableLoop_valid socket tables _ _ p hp
        · exact absurd hcol (by simp)
      · split at hcol
        · rename_i fixedPerk hfix
          rw [Option.some.injEq] at hcol
          subst hcol
          rcases List.mem_singleton.mp hp with rfl
          exact fixedPerk_valid socket tables p hfix
        · exact absurd hcol (by simp)
    · split at hcol
      · exact absurd hcol (by simp)
      · rename_i plugSet hlook
        split at hcol
        · rw [Option.some.injEq] at hcol
          subst hcol
          exact mem_plugset_valid socket plugSet tables p hp
        · exact absurd hcol (by simp)

/-- C9: no perk entry of any emitted column refers to a plug definition
with an empty display name, an empty/placeholder plug category, or the
enhanced-perk tier marker. -/
theorem c9_no_invalid_perks (tables : ManifestTables) (d2aiData : D2AIData)
    (wf : WeaponFull) (hw : wf ∈ (transformWeapons tables d2aiData).full)
    (col : List Perk) (hc : col ∈ wf.perks) (p : Perk) (hp : p ∈ col) :
    ∃ plugDef, p.hash = plugDef.hash ∧ p.name = plugDef.displayProperties.name ∧
      plugDef.displayProperties.name ≠ "" ∧ isEmptyPlug plugDef = false ∧
      isEnhancedPerk plugDef = false := by
  obtain ⟨itemDef, hmem, hweapon, rfl⟩ := mem_transform_full tables d2aiData wf hw
  simp only [mkWeaponFull, getPerks, List.mem_filterMap] at hc
  obtain ⟨socket, hsock, hcoleq⟩ := hc
  obtain ⟨d, hvalid, hhash, hname⟩ := mem_column_valid socket tables col hcoleq p hp
  obtain ⟨h1, h2, h3⟩ := validPerk_spec d hvalid
  exact ⟨d, hhash, hname, h1, h2, h3⟩

/-- Witness for C9 at the sample weapon's Outlaw perk. -/
theorem c9_no_invalid_perks_witness :
    ∃ plugDef,
      (createPerk (mkPlugDef 300 "Outlaw") true false false).hash = plugDef.hash ∧
      (createPerk (mkPlugDef 300 "Outlaw") true false false).name =
        plugDef.displayProperties.name ∧
      plugDef.displayProperties.name ≠ "" ∧ isEmptyPlug plugDef = false ∧
      isEnhancedPerk plugDef = false :=
  c9_no_invalid_perks sampleTables sampleD2AI
    (mkWeaponFull sampleTables sampleD2AI sampleWeaponDef)
    (by simp [show (transformWeapons sampleTables sampleD2AI).full =
      [mkWeaponFull sampleTables sampleD2AI sampleWeaponDef] from rfl])
    (getPerksFromPlugSet perkSocket samplePlugSet sampleTables)
    (by simp [show (mkWeaponFull sampleTables sampleD2AI sampleWeaponDef).perks =
      [getPerksFromPlugSet perkSocket samplePlugSet sampleTables] from rfl])
    (createPerk (mkPlugDef 300 "Outlaw") true false false)
    (by simp [show getPerksFromPlugSet perkSocket samplePlugSet sampleTables =
      [createPerk (mkPlugDef 300 "Outlaw") true false false,
       createPerk (mkPlugDef 301 "Rampage") false false false,
       createPerk (mkPlugDef 302 "Kill Clip") false false true] from rfl])

/-- C4: an item is transformed into output records iff it carries the weapon
category marker, lacks the dummy marker, sits in one of the three weapon
buckets, has a non-empty display name and is not redacted; every emitted
full/concise record arises from an item passing this filter. -/
theorem c4_qualification_filter (tables : ManifestTables) (d2aiData : D2AIData)
    (itemDef : InventoryItemDef)
    (hmem : itemDef ∈ tvalues tables.DestinyInventoryItemDefinition) :
    (isWeapon itemDef = true ↔
      (ItemCategoryWeapon ∈ itemDef.itemCategoryHashes.getD [] ∧
       ItemCategoryDummies ∉ itemDef.itemCategoryHashes.getD [] ∧
       (∃ blk, itemDef.inventory = some blk ∧ blk.bucketTypeHash ∈ WEAPON_BUCKET_HASHES) ∧
       itemDef.displayProperties.name ≠ "" ∧
       itemDef.redacted = false)) ∧
    (isWeapon itemDef = true →
      mkWeaponFull tables d2aiData itemDef ∈ (transformWeapons tables d2aiData).full ∧
      toWeaponConcise (mkWeaponFull tables d2aiData itemDef) ∈
        (transformWeapons tables d2aiData).concise) ∧
    (∀ wf ∈ (transformWeapons tables d2aiData).full,
      ∃ i ∈ tvalues tables.DestinyInventoryItemDefinition,
        isWeapon i = true ∧ wf = mkWeaponFull tables d2aiData i) ∧
    (∀ wc ∈ (transformWeapons tables d2aiData).concise,
      ∃ i ∈ tvalues tables.DestinyInventoryItemDefinition,
        isWeapon i = true ∧ wc = toWeaponConcise (mkWeaponFull tables d2aiData i)) := by
  refine ⟨?_, ?_, ?_, ?_⟩
  · simp only [isWeapon, Bool.and_eq_true, Bool.not_eq_true']
    constructor
    · rintro ⟨⟨⟨⟨hcat, hdum⟩, hbucket⟩, hname⟩, hred⟩
      refine ⟨by simpa using hcat, by simpa using hdum, ?_, by simpa using hname, hred⟩
      cases hinv : itemDef.inventory with
      | none => rw [hinv] at hbucket; simp at hbucket
      | some blk =>
        rw [hinv] at hbucket
        refine ⟨blk, rfl, ?_⟩
        simpa using hbucket
    · rintro ⟨hcat, hdum, ⟨blk, hinv, hbucket⟩, hname, hred⟩
      refine ⟨⟨⟨⟨by simpa using hcat, by simpa using hdum⟩, ?_⟩, by simpa using hname⟩, hred⟩
      rw [hinv]
      simpa using hbucket
  · intro hweapon
    have hfull : mkWeaponFull tables d2aiData itemDef ∈ (transformWeapons tables d2aiData).full := by
      simp only [transformWeapons, List.mem_map]
      exact ⟨itemDef, List.mem_filter.mpr ⟨hmem, hweapon⟩, rfl⟩
    exact ⟨hfull, List.mem_map_of_mem toWeaponConcise hfull⟩
  · intro wf hw
    exact mem_transform_full tables d2aiData wf hw
  · intro wc hw
    simp only [transformWeapons, List.mem_map, List.mem_filter] at hw
    obtain ⟨wf, ⟨i, ⟨hi, hweapon⟩, rfl⟩, rfl⟩ := hw
    exact ⟨i, hi, hweapon, rfl⟩

/-- Witness for C4 at the sample weapon. -/
theorem c4_qualification_filter_witness :
    mkWeaponFull sampleTables sampleD2AI sampleWeaponDef ∈
      (transformWeapons sampleTables sampleD2AI).full ∧
    toWeaponConcise (mkWeaponFull sampleTables sampleD2AI sampleWeaponDef) ∈
      (transformWeapons sampleTables sampleD2AI).concise :=
  (c4_qualification_filter sampleTables sampleD2AI sampleWeaponDef (by decide)).2.1
    (by decide)

/-- Helper: a string has positive length iff it is not the empty string. -/
theorem length_pos_iff_ne_empty (s : String) : s.length > 0 ↔ s ≠ "" := by
  constructor
  · intro h heq
    rw [heq] at h
    simp at h
  · intro h
    cases s with
    | mk data =>
      cases data with
      | nil => exact absurd rfl h
      | cons c cs => simp [String.length]

/-- C5: the derived season is the first hit of the layered chain
watermark→season, source→season, item→season; the derived event uses the
same chain with the source step omitted; and the watermark prefers the
primary path over the shelved one, null when both are empty.  (A 0 source
hash is the sentinel the transformer stores for a collectible without a
source and is skipped, hence the hypothesis.) -/
theorem c5_season_event_chain (itemDef : InventoryItemDef) (wm : Option String)
    (sh : Option Nat) (d2aiData : D2AIData)
    (hw : wm ≠ some "") (hs : sh ≠ some 0) :
    getSeason itemDef wm sh d2aiData =
      (specSeasonChain itemDef wm sh d2aiData).findSome? id ∧
    getEvent itemDef wm sh d2aiData =
      (specEventChain itemDef wm d2aiData).findSome? id ∧
    getWatermark itemDef =
      (if itemDef.iconWatermark ≠ "" then some itemDef.iconWatermark
       else if itemDef.iconWatermarkShelved ≠ "" then some itemDef.iconWatermarkShelved
       else none) := by
  refine ⟨?_, ?_, ?_⟩
  · cases wm with
    | none =>
      cases sh with
      | none =>
        simp only [getSeason, specSeasonChain, Option.bind]
        cases slookup d2aiData.seasons (toString itemDef.hash) <;>
          simp [List.findSome?]
      | some s =>
        have hne : s ≠ 0 := fun he => hs (by rw [he])
        simp only [getSeason, specSeasonChain, Option.bind, hne, if_true, ne_eq,
          not_false_iff]
        cases slookup d2aiData.sourceToSeason (toString s) <;>
          cases slookup d2aiData.seasons (toString itemDef.hash) <;>
            simp [List.findSome?, hne]
    | some w =>
      have hne : w ≠ "" := fun he => hw (by rw [he])
      cases sh with
      | none =>
        simp only [getSeason, specSeasonChain, Option.bind, hne, if_true, ne_eq,
          not_false_iff]
        cases slookup d2aiData.watermarkToSeason w <;>
          cases slookup d2aiData.seasons (toString itemDef.hash) <;>
            simp [List.findSome?, hne]
      | some s =>
        have hne2 : s ≠ 0 := fun he => hs (by rw [he])
        simp only [getSeason, specSeasonChain, Option.bind, hne, hne2, if_true,
          ne_eq, not_false_iff]
        cases slookup d2aiData.watermarkToSeason w <;>
          cases slookup d2aiData.sourceToSeason (toString s) <;>
            cases slookup d2aiData.seasons (toString itemDef.hash) <;>
              simp [List.findSome?, hne, hne2]
  · cases wm with
    | none =>
      simp only [getEvent, specEventChain, Option.bind]
      cases slookup d2aiData.events (toString itemDef.hash) <;>
        simp [List.findSome?]
    | some w =>
      have hne : w ≠ "" := fun he => hw (by rw [he])
      simp only [getEvent, specEventChain, Option.bind, hne, if_true, ne_eq,
        not_false_iff]
      cases slookup d2aiData.watermarkToEvent w <;>
        cases slookup d2aiData.events (toString itemDef.hash) <;>
          simp [List.findSome?, hne]
  · unfold getWatermark
    by_cases h1 : itemDef.iconWatermark = ""
    · by_cases h2 : itemDef.iconWatermarkShelved = ""
      · simp [h1, h2]
      · simp [h1, h2, (length_pos_iff_ne_empty _).mpr h2]
    · simp [h1, (length_pos_iff_ne_empty _).mpr h1]

/-- Witness for C5 at the sample item, a watermark and a source hash. -/
theorem c5_season_event_chain_witness :
    getSeason sampleWeaponDef (some "wm1") (some 5) sampleD2AI =
      (specSeasonChain sampleWeaponDef (some "wm1") (some 5) sampleD2AI).findSome? id ∧
    getEvent sampleWeaponDef (some "wm1") (some 5) sampleD2AI =
      (specEventChain sampleWeaponDef (some "wm1") sampleD2AI).findSome? id :=
  ⟨(c5_season_event_chain sampleWeaponDef (some "wm1") (some 5) sampleD2AI
      (by decide) (by decide)).1,
   (c5_season_event_chain sampleWeaponDef (some "wm1") (some 5) sampleD2AI
      (by decide) (by decide)).2.1⟩

/-- C6 counterexample: a plug set listing the same plug hash twice produces
an emitted perk column with two entries of that hash — plug-set columns are
not deduplicated. -/
theorem c6_counterexample :
    ¬ (∀ wf ∈ (transformWeapons dupTables emptyD2AIData).full,
        ∀ col ∈ wf.perks, (col.map Perk.hash).Nodup) := by
  decide

/-- Helper: first-occurrence deduplication yields a duplicate-free list. -/
theorem nodup_dedupFirstAux : ∀ (l seen : List Nat), (dedupFirstAux l seen).Nodup := by
  intro l
  induction l with
  | nil => intro seen; simp [dedupFirstAux]
  | cons h t ih =>
    intro seen
    rw [dedupFirstAux]
    split
    · exact ih seen
    · refine List.Nodup.cons ?_ (ih (h :: seen))
      intro hmem
      exact ((mem_dedupFirstAux h t (h :: seen)).mp hmem).2 (List.mem_cons_self h seen)

/-- Helper: dedupFirst yields a duplicate-free list. -/
theorem nodup_dedupFirst (l : List Nat) : (dedupFirst l).Nodup :=
  nodup_dedupFirstAux l []

/-- Helper: in a well-formed table (each record keyed by its own hash), a
successful lookup returns a record whose hash is the key. -/
theorem tlookup_wf {t : List (Nat × InventoryItemDef)}
    (hwf : ∀ pair ∈ t, (Prod.snd pair).hash = Prod.fst pair) {h : Nat}
    {d : InventoryItemDef} (hl : tlookup t h = some d) : d.hash = h := by
  induction t with
  | nil => simp [tlookup, List.lookup] at hl
  | cons pair rest ih =>
    rw [tlookup, List.lookup] at hl
    split at hl
    · rename_i hbe
      rw [Option.some.injEq] at hl
      subst hl
      have hph := hwf pair (List.mem_cons_self pair rest)
      have hk : h = pair.1 := by simpa using hbe
      rw [hph, hk]
    · exact ih (fun p hp => hwf p (List.mem_cons_of_mem pair hp)) hl

/-- Helper: the hashes of a filterMap whose results carry the hash of their
source are among the source hashes. -/
theorem mem_map_hash_filterMap {α : Type} (l : List α) (g : α → Nat)
    (f : α → Option Perk) (hf : ∀ a p, f a = some p → p.hash = g a) (x : Nat)
    (hx : x ∈ (l.filterMap f).map Perk.hash) : x ∈ l.map g := by
  simp only [List.mem_map, List.mem_filterMap] at hx ⊢
  obtain ⟨p, ⟨a, ha, hfa⟩, rfl⟩ := hx
  exact ⟨a, ha, (hf a p hfa).symm⟩

/-- Helper: a filterMap whose results carry the hash of their source
preserves hash-freedom from duplicates. -/
theorem nodup_map_hash_filterMap {α : Type} (l : List α) (g : α → Nat)
    (f : α → Option Perk) (hf : ∀ a p, f a = some p → p.hash = g a)
    (hn : (l.map g).Nodup) : ((l.filterMap f).map Perk.hash).Nodup := by
  induction l with
  | nil => simp
  | cons a t ih =>
    simp only [List.map_cons, List.nodup_cons] at hn
    obtain ⟨hga, hnt⟩ := hn
    rw [List.filterMap_cons]
    split
    · exact ih hnt
    · rename_i p hfa
      rw [List.map_cons]
      refine List.Nodup.cons ?_ (ih hnt)
      intro hmem
      rw [hf a p hfa] at hmem
      exact hga (mem_map_hash_filterMap t g f hf (g a) hmem)

/-- Helper: the seenHashes accumulator makes the direct reusable-list
column duplicate-free, and every produced perk's hash avoids the seen
list. -/
theorem reusableLoop_nodup (socket : SocketEntry) (tables : ManifestTables) :
    ∀ (plugs : List SocketPlugItem) (seen : List Nat),
      ((perksFromReusableLoop socket tables plugs seen).map Perk.hash).Nodup ∧
      (∀ p ∈ perksFromReusableLoop socket tables plugs seen, p.hash ∉ seen) := by
  intro plugs
  induction plugs with
  | nil => intro seen; simp [perksFromReusableLoop]
  | cons plug rest ih =>
    intro seen
    rw [perksFromReusableLoop]
    split
    · exact ih seen
    · rename_i plugDef hlook
      split
      · rename_i hvalid
        split
        · exact ih seen
        · rename_i hseen
          obtain ⟨ihnodup, ihseen⟩ := ih (plugDef.hash :: seen)
          have hnotseen : plugDef.hash ∉ seen := by simpa using hseen
          refine ⟨?_, ?_⟩
          · rw [List.map_cons]
            refine List.Nodup.cons ?_ ihnodup
            intro hmem
            simp only [List.mem_map] at hmem
            obtain ⟨p, hp, hph⟩ := hmem
            exact (ihseen p hp) (hph ▸ List.mem_cons_self _ _)
          · intro p hp
            rcases List.mem_cons.mp hp with rfl | hp2
            · exact hnotseen
            · exact fun hc => (ihseen p hp2) (List.mem_cons_of_mem _ hc)
      · exact ih seen

/-- C6 (amended): columns built from the socket's direct reusable-plug list
are always duplicate-free (the seenHashes set collapses repeats to first
occurrence), but plug-set columns perform no deduplication and can repeat a
hash the pool lists twice — over a well-formed table, a plug-set column
whose pool repeats no hash is itself duplicate-free. -/
theorem c6_amended_dedup :
    (∀ (socket : SocketEntry) (tables : ManifestTables),
      ((getPerksFromReusablePlugItems socket tables).map Perk.hash).Nodup) ∧
    (∀ (socket : SocketEntry) (plugSet : PlugSetDef) (tables : ManifestTables),
      (∀ pair ∈ tables.DestinyInventoryItemDefinition,
        (Prod.snd pair).hash = Prod.fst pair) →
      (plugSet.reusablePlugItems.map PlugSetItem.plugItemHash).Nodup →
      ((getPerksFromPlugSet socket plugSet tables).map Perk.hash).Nodup) := by
  constructor
  · intro socket tables
    exact (reusableLoop_nodup socket tables socket.reusablePlugItems []).1
  · intro socket plugSet tables hwf hpool
    simp only [getPerksFromPlugSet]
    rw [List.map_append]
    have hf1 : ∀ (plug : PlugSetItem) (p : Perk),
        (match tlookup tables.DestinyInventoryItemDefinition plug.plugItemHash with
         | none => none
         | some plugDef =>
           if isValidPerk plugDef then
             some (createPerk plugDef
               ((dedupFirst (List.map SocketPlugItem.plugItemHash socket.reusablePlugItems)).contains
                 plug.plugItemHash) false (!plug.currentlyCanRoll))
           else none) = some p → p.hash = plug.plugItemHash := by
      intro plug p hp
      split at hp
      · exact absurd hp (by simp)
      · rename_i plugDef hlook
        split at hp
        · rw [Option.some.injEq] at hp
          subst hp
          exact tlookup_wf hwf hlook
        · exact absurd hp (by simp)
    have hf2 : ∀ (curatedHash : Nat) (p : Perk),
        (if (List.map PlugSetItem.plugItemHash plugSet.reusablePlugItems).contains curatedHash then
           none
         else
           match tlookup tables.DestinyInventoryItemDefinition curatedHash with
           | none => none
           | some plugDef =>
             if isValidPerk plugDef then some (createPerk plugDef true true false)
             else none) = some p →
        p.hash = curatedHash ∧
        ¬ (List.map PlugSetItem.plugItemHash plugSet.reusablePlugItems).contains curatedHash := by
      intro curatedHash p hp
      split at hp
      · exact absurd hp (by simp)
      · rename_i hcont
        split at hp
        · exact absurd hp (by simp)
        · rename_i plugDef hlook
          split at hp
          · rw [Option.some.injEq] at hp
            subst hp
            exact ⟨tlookup_wf hwf hlook, hcont⟩
          · exact absurd hp (by simp)
    refine List.Nodup.append ?_ ?_ ?_
    · exact nodup_map_hash_filterMap plugSet.reusablePlugItems PlugSetItem.plugItemHash _
        hf1 hpool
    · refine nodup_map_hash_filterMap
        (dedupFirst (List.map SocketPlugItem.plugItemHash socket.reusablePlugItems))
        id _ (fun a p hp => (hf2 a p hp).1) ?_
      rw [List.map_id]
      exact nodup_dedupFirst _
    · intro x hx1 hx2
      have hxpool : x ∈ List.map PlugSetItem.plugItemHash plugSet.reusablePlugItems :=
        mem_map_hash_filterMap plugSet.reusablePlugItems PlugSetItem.plugItemHash _ hf1 x hx1
      simp only [List.mem_map, List.mem_filterMap] at hx2
      obtain ⟨p, ⟨ch, hch, hfc⟩, rfl⟩ := hx2
      obtain ⟨hph, hcont⟩ := hf2 ch p hfc
      rw [hph] at hxpool
      exact hcont (by simpa using hxpool)

/-- Witness for the amended C6 at the sample plug-set column. -/
theorem c6_amended_dedup_witness :
    ((getPerksFromPlugSet perkSocket samplePlugSet sampleTables).map Perk.hash).Nodup :=
  c6_amended_dedup.2 perkSocket samplePlugSet sampleTables (by decide) (by decide)
